import Mathlib

/-
Shallow embedding of the console address-book program (src/main.py and
src/main-currying.py).  The two variants share their AddressBook and Record
code verbatim; they differ only in the Field classes and in the dispatcher,
and those parts are embedded separately where the difference matters.

Python exceptions are modelled with Except PyError; functions that the
source cannot make raise are total.  datetime.now() is modelled as an
explicit parameter.
-/

/-- Python exception values observable in the translated code. -/
inductive PyError where
  | valueError (msg : String)
  | attributeError (msg : String)
  deriving DecidableEq

/-- A single-quote character as a string (used by Python repr/message text). -/
def pyQuote : String := String.singleton (Char.ofNat 39)

/-- Model of datetime: a calendar date plus a time-of-day in seconds.
strptime-produced values have secondsOfDay = 0; datetime.now() may not. -/
structure PyDateTime where
  year : Int
  month : Nat
  day : Nat
  secondsOfDay : Nat
  deriving DecidableEq

/-- Gregorian leap-year rule, as used by Python's datetime module. -/
def isLeapYear (y : Int) : Bool :=
  y % 4 == 0 && (y % 100 != 0 || y % 400 == 0)

/-- Length of a month in the proleptic Gregorian calendar. -/
def daysInMonth (y : Int) (m : Nat) : Nat :=
  if m = 2 then (if isLeapYear y then 29 else 28)
  else if m = 4 ∨ m = 6 ∨ m = 9 ∨ m = 11 then 30
  else 31

/-- Day number of a civil date (standard days-from-civil algorithm,
measured from the Unix epoch; only differences of these values are ever
used, so the choice of epoch is irrelevant). -/
def daysFromCivil (y : Int) (m d : Nat) : Int :=
  let yAdj : Int := if m ≤ 2 then y - 1 else y
  let era : Int := yAdj.fdiv 400
  let yoe : Int := yAdj - era * 400
  let mp : Int := (Int.ofNat m + 9) % 12
  let doy : Int := (153 * mp + 2).fdiv 5 + Int.ofNat d - 1
  let doe : Int := yoe * 365 + yoe.fdiv 4 - yoe.fdiv 100 + doy
  era * 146097 + doe - 719468

/-- Timeline position of a datetime, in seconds.  Python compares and
subtracts datetimes by exactly this quantity. -/
def PyDateTime.toSeconds (d : PyDateTime) : Int :=
  daysFromCivil d.year d.month d.day * 86400 + d.secondsOfDay

/-- datetime.replace(year=y): keeps month, day and time, fails with
ValueError when the day does not exist in the target year (Feb 29). -/
def PyDateTime.replaceYear (d : PyDateTime) (y : Int) : Option PyDateTime :=
  if d.day ≤ daysInMonth y d.month then some { d with year := y } else none

/-- timedelta .days of (a - b): floor of the second difference in days. -/
def pyTimedeltaDays (a b : PyDateTime) : Int :=
  (a.toSeconds - b.toSeconds).fdiv 86400

/-- Python str.split(sep) with a one-character separator: splitting on
every occurrence, keeping empty pieces (the library String.splitOn is
defined by well-founded recursion and does not reduce, so the same
operation is given here structurally over the character list). -/
def pySplitChar (sep : Char) : List Char → List (List Char)
  | [] => [[]]
  | c :: rest =>
    if c = sep then [] :: pySplitChar sep rest
    else
      match pySplitChar sep rest with
      | [] => [[c]]
      | g :: gs => (c :: g) :: gs

/-- Value of a string of decimal digits. -/
def digitsToNat (cs : List Char) : Nat :=
  cs.foldl (fun a c => a * 10 + (c.toNat - 48)) 0

/-- Python str.split(sep) at the string level. -/
def pySplit (sep : Char) (s : String) : List String :=
  (pySplitChar sep s.data).map String.mk

/-- Python str.strip(): drop leading and trailing whitespace. -/
def pyStrip (s : String) : String :=
  String.mk (((s.data.dropWhile Char.isWhitespace).reverse.dropWhile Char.isWhitespace).reverse)

/-- Python str.lower() (ASCII range, the only characters exercised here). -/
def pyLower (s : String) : String :=
  String.mk (s.data.map Char.toLower)

/-- Python str.startswith. -/
def pyStartsWith (s pre : String) : Bool :=
  pre.data.isPrefixOf s.data

/-- The substring from character position n on (used to model
split(sep, 1)[1] when the prefix before the first space is known). -/
def pyDropChars (n : Nat) (s : String) : String :=
  String.mk (s.data.drop n)

/-- datetime.strptime(s, percent-d dash percent-m dash percent-Y) as used by
Birthday.as_datetime: day and month of 1-2 digits, year of 1-4 digits,
separated by single dashes, forming a real calendar date; returns none where
CPython raises ValueError.  (Restricted to ASCII digit strings, the only
values this program produces.) -/
def pyStrptimeDate (s : String) : Option PyDateTime :=
  match pySplitChar (Char.ofNat 45) s.data with
  | [ds, ms, ys] =>
    if 1 ≤ ds.length ∧ ds.length ≤ 2 ∧ ds.all Char.isDigit ∧
       1 ≤ ms.length ∧ ms.length ≤ 2 ∧ ms.all Char.isDigit ∧
       1 ≤ ys.length ∧ ys.length ≤ 4 ∧ ys.all Char.isDigit then
      let d := digitsToNat ds
      let m := digitsToNat ms
      let y := digitsToNat ys
      if 1 ≤ y ∧ 1 ≤ m ∧ m ≤ 12 ∧ 1 ≤ d ∧ d ≤ daysInMonth (Int.ofNat y) m then
        some ⟨Int.ofNat y, m, d, 0⟩
      else none
    else none
  | _ => none

/-- Name field.  Field.__init__ stores the value directly (main.py goes
through the plain inherited value setter, main-currying.py assigns the
attribute); no validation runs in either variant. -/
structure Name where
  value : String
  deriving DecidableEq

/-- Phone field.  In main.py the decorator pair on validate turns validate
into a property and leaves the inherited plain value setter in effect, and
in main-currying.py __init__ never calls validate, so in both variants
construction stores the raw string with no validation. -/
structure Phone where
  value : String
  deriving DecidableEq

/-- Birthday field.  Same situation as Phone: neither variant runs any
validation at construction. -/
structure Birthday where
  value : String
  deriving DecidableEq

/-- Phone(number): Field.__init__ stores the string unconditionally. -/
def Phone.init (v : String) : Phone := { value := v }

/-- Name(name): stores the string unconditionally. -/
def Name.init (v : String) : Name := { value := v }

/-- Birthday(value): stores the string unconditionally. -/
def Birthday.init (v : String) : Birthday := { value := v }

/-- The body of main-currying.py Phone.validate, as a check on the stored
value: len(self.value) == 10 and self.value.isdigit().  This method is never
invoked by the program; it is embedded so its rule can be stated. -/
def Phone.validateOk (p : Phone) : Bool :=
  p.value.length == 10 && p.value.data.all Char.isDigit

/-- The body of the main.py Phone validator (the function named validate
wrapped by the value-setter decorator): accepts length 10 to 12 numeric
strings.  Also never invoked by the program. -/
def Phone.validateOkMain (p : Phone) : Bool :=
  decide (10 ≤ p.value.length) && decide (p.value.length ≤ 12) && p.value.data.all Char.isDigit

/-- main-currying.py Birthday.validate: strptime the stored value, raising
ValueError with the fixed message on failure. -/
def Birthday.validateRun (b : Birthday) : Except PyError Unit :=
  match pyStrptimeDate b.value with
  | none => .error (.valueError "Invalid birthday format (DD-MM-YYYY)")
  | some _ => .ok ()

/-- main-currying.py Field.set_value on a Birthday: self.value = value
first (the state is overwritten unconditionally), then self.validate().
The returned pair is (outcome of the call, state of the field after it). -/
def Birthday.set_value (b : Birthday) (v : String) : Except PyError Unit × Birthday :=
  let after : Birthday := { value := v }
  (after.validateRun, after)

/-- One contact record: Name, ordered phone list, optional Birthday. -/
structure Record where
  name : Name
  phones : List Phone
  birthday : Option Birthday
  deriving DecidableEq

/-- Record.__init__(name, birthday=None): Birthday(birthday) if birthday
else None, so both a missing and an empty-string birthday give None. -/
def Record.init (name : String) (birthday : Option String) : Record :=
  { name := Name.init name
    phones := []
    birthday :=
      match birthday with
      | some s => if s = "" then none else some (Birthday.init s)
      | none => none }

/-- Record.add_phone: constructs a Phone (which cannot fail) and appends. -/
def Record.add_phone (r : Record) (number : String) : Record :=
  { r with phones := r.phones ++ [Phone.init number] }

/-- The loop body of Record.remove_phone.  CPython's for-loop walks the
list by an internal index; list.remove(phone) removes the first element
identical to the in-hand phones[i], which is position i itself since every
Phone in this program is a freshly constructed object.  So a removal at
index i shifts the tail left while the cursor still advances to i+1. -/
def removePhoneLoop (number : String) (phones : List Phone) (i : Nat) : List Phone :=
  if h : i < phones.length then
    if (phones[i]).value = number then
      removePhoneLoop number (phones.eraseIdx i) (i + 1)
    else
      removePhoneLoop number phones (i + 1)
  else phones
termination_by phones.length - i
decreasing_by
  · simp only [List.length_eraseIdx, h, if_pos]
    omega
  · omega

/-- Record.remove_phone(number). -/
def Record.remove_phone (r : Record) (number : String) : Record :=
  { r with phones := removePhoneLoop number r.phones 0 }

/-- Structural restatement of the remove_phone loop: on a match the element
is deleted and the element right after it is skipped (it moves into the
already-visited index).  Proved equal to removePhoneLoop below. -/
def removePhoneRun (number : String) : List Phone → List Phone
  | [] => []
  | p :: rest =>
    if p.value = number then
      match rest with
      | [] => []
      | q :: rest2 => q :: removePhoneRun number rest2
    else p :: removePhoneRun number rest

/-- Record.edit_phone(old, new): membership test on the phone values, then
remove_phone(old) and add_phone(new); otherwise ValueError. -/
def Record.edit_phone (r : Record) (old_number new_number : String) : Except PyError Record :=
  if old_number ∈ r.phones.map Phone.value then
    .ok ((r.remove_phone old_number).add_phone new_number)
  else
    .error (.valueError "Phone number not found")

/-- The scan inside Record.find_phone: first phone with the given value. -/
def findPhoneLoop (number : String) : List Phone → Option Phone
  | [] => none
  | p :: rest => if p.value = number then some p else findPhoneLoop number rest

/-- Record.find_phone(number): first match, none on a miss. -/
def Record.find_phone (r : Record) (number : String) : Option Phone :=
  findPhoneLoop number r.phones

/-- Record.days_to_birthday(birthday_date=None), verbatim from the source:
if a birthday is set, today = datetime.now(); self.birthday.as_datetime()
is computed and its result DISCARDED (it can still raise ValueError on a
malformed stored value); then next_birthday is built from the PARAMETER
birthday_date, which is None by default, so .replace on it raises
AttributeError.  now models datetime.now(). -/
def Record.days_to_birthday (r : Record) (birthday_date : Option PyDateTime)
    (now : PyDateTime) : Except PyError (Option Int) :=
  match r.birthday with
  | none => .ok none
  | some b =>
    match pyStrptimeDate b.value with
    | none => .error (.valueError "time data does not match format")
    | some _ =>
      match birthday_date with
      | none => .error (.attributeError "NoneType object has no attribute replace")
      | some bd =>
        match bd.replaceYear now.year with
        | none => .error (.valueError "day is out of range for month")
        | some candidate =>
          if candidate.toSeconds < now.toSeconds then
            match bd.replaceYear (now.year + 1) with
            | none => .error (.valueError "day is out of range for month")
            | some candidate2 => .ok (some (pyTimedeltaDays candidate2 now))
          else .ok (some (pyTimedeltaDays candidate now))

/-- Python repr of a list of plain strings, as an f-string renders it. -/
def pyStrListRepr (xs : List String) : String :=
  "[" ++ String.intercalate ", " (xs.map (fun s => pyQuote ++ s ++ pyQuote)) ++ "]"

/-- Record.__str__. -/
def Record.render (r : Record) : String :=
  "Name: " ++ r.name.value ++ ", Phones: " ++ pyStrListRepr (r.phones.map Phone.value) ++
    ", Birthday: " ++ (match r.birthday with | some b => b.value | none => "Not specified")

/-- dict assignment d[k] = v: replaces the value in place when the key
exists, appends a new entry otherwise (Python dicts preserve insertion
order). -/
def dictSet : List (String × Record) → String → Record → List (String × Record)
  | [], k, v => [(k, v)]
  | (k1, v1) :: rest, k, v =>
    if k1 = k then (k, v) :: rest else (k1, v1) :: dictSet rest k v

/-- dict lookup d[k] guarded by `k in d`: first entry with the key. -/
def dictGet : List (String × Record) → String → Option Record
  | [], _ => none
  | (k1, v1) :: rest, k => if k1 = k then some v1 else dictGet rest k

/-- del d[k] guarded by `k in d`: drops the entry, no-op when absent. -/
def dictDel : List (String × Record) → String → List (String × Record)
  | [], _ => []
  | (k1, v1) :: rest, k => if k1 = k then rest else (k1, v1) :: dictDel rest k

/-- AddressBook: UserDict, i.e. an insertion-ordered string-keyed mapping.
The list model admits duplicate keys; real dict states never have them,
which is the WF predicate below. -/
structure AddressBook where
  data : List (String × Record)
  deriving DecidableEq

/-- The inherent dict invariant: keys are distinct. -/
def AddressBook.WF (b : AddressBook) : Prop := (b.data.map Prod.fst).Nodup

/-- AddressBook.add_record: self.data[record.name.value] = record. -/
def AddressBook.add_record (b : AddressBook) (record : Record) : AddressBook :=
  ⟨dictSet b.data record.name.value record⟩

/-- AddressBook.find: the record under the name, none on a miss. -/
def AddressBook.find (b : AddressBook) (name : String) : Option Record :=
  dictGet b.data name

/-- AddressBook.delete: removes the entry if present. -/
def AddressBook.delete (b : AddressBook) (name : String) : AddressBook :=
  ⟨dictDel b.data name⟩

/-- The dispatcher's edit command mutates the found record object in place;
in the pure model the dict entry under that key is replaced with the
updated record. -/
def AddressBook.setEntry (b : AddressBook) (name : String) (record : Record) : AddressBook :=
  ⟨dictSet b.data name record⟩

/-- AddressBook.__str__: one rendered record per line. -/
def AddressBook.render (b : AddressBook) : String :=
  String.intercalate "\n" ((b.data.map Prod.snd).map Record.render)

/-- The while-loop of AddressBook.iterator, with a fuel argument: while
current_page < len(values), yield values[current_page : current_page +
page_size] (a nonnegative Python slice, i.e. drop then take) and advance by
page_size.  For page_size > 0 the loop makes at most len(values) + 1
iterations, so the fuel below never runs out; the divergence at
page_size <= 0 is modelled separately by iterCurrentPage / iterGuard. -/
def addressGeneratorLoop (values : List Record) (page_size : Nat) :
    Nat → Nat → List (List Record)
  | 0, _ => []
  | fuel + 1, current_page =>
    if current_page < values.length then
      ((values.drop current_page).take page_size) ::
        addressGeneratorLoop values page_size fuel (current_page + page_size)
    else []

/-- AddressBook.iterator(page_size): the full (finite, for positive page
size) sequence of yielded pages over list(self.data.values()). -/
def AddressBook.iterator (b : AddressBook) (page_size : Nat) : List (List Record) :=
  addressGeneratorLoop (b.data.map Prod.snd) page_size (b.data.length + 1) 0

/-- The loop state of AddressBook.iterator for an arbitrary (possibly
nonpositive) integer page_size: current_page starts at 0 and each iteration
adds page_size. -/
def iterCurrentPage (page_size : Int) : Nat → Int
  | 0 => 0
  | k + 1 => iterCurrentPage page_size k + page_size

/-- The loop guard current_page < len(self.data) before iteration k; the
generator yields its k-th page exactly when this holds. -/
def iterGuard (n : Nat) (page_size : Int) (k : Nat) : Prop :=
  iterCurrentPage page_size k < (n : Int)

/-- The outcome of one loop iteration of main() in main.py: the book after
the command, the lines printed, and whether the loop broke. -/
structure DispatchResult where
  book : AddressBook
  output : List String
  terminated : Bool
  deriving DecidableEq

/-- The add branch of main.py: split on single spaces, usage message when
fewer than 3 parts, otherwise destructure, build the Record (empty or
missing birthday gives None), add the phone and store the record. -/
def addCommand (b : AddressBook) (command : String) : Except PyError DispatchResult :=
  match pySplit (Char.ofNat 32) command with
  | _ :: name :: phone :: birthdayParts =>
    let record := (Record.init name birthdayParts.head?).add_phone phone
    .ok ⟨b.add_record record,
         ["Record for " ++ name ++ " added to the address book."], false⟩
  | _ =>
    .ok ⟨b, ["Invalid command. Use " ++ pyQuote ++ "add <name> <phone> [birthday]" ++ pyQuote],
         false⟩

/-- The delete branch: name is everything after the first space; the delete
itself is a no-op on a miss and the message is printed either way. -/
def deleteCommand (b : AddressBook) (name : String) : Except PyError DispatchResult :=
  .ok ⟨b.delete name, ["Record for " ++ name ++ " deleted from the address book."], false⟩

/-- The find branch. -/
def findCommand (b : AddressBook) (name : String) : Except PyError DispatchResult :=
  match b.find name with
  | some record => .ok ⟨b, ["Found record: " ++ record.render], false⟩
  | none => .ok ⟨b, ["No record found for " ++ name ++ "."], false⟩

/-- The edit branch: exactly 3 parts required; on a hit the found record
object's phone list is replaced in place with [Phone(new_phone)]. -/
def editCommand (b : AddressBook) (command : String) : Except PyError DispatchResult :=
  match pySplit (Char.ofNat 32) command with
  | [_, name, newPhone] =>
    match b.find name with
    | some record =>
      .ok ⟨b.setEntry name { record with phones := [Phone.init newPhone] },
           ["Phone number for " ++ name ++ " edited to " ++ newPhone ++ "."], false⟩
    | none => .ok ⟨b, ["No record found for " ++ name ++ "."], false⟩
  | _ =>
    .ok ⟨b, ["Invalid command. Use " ++ pyQuote ++ "edit <name> <new_phone>" ++ pyQuote], false⟩

/-- The birthday branch: record.days_to_birthday() is called with NO
argument, so any exception it raises propagates out of main() uncaught
(there is no try/except anywhere in main.py). -/
def birthdayCommand (b : AddressBook) (name : String) (now : PyDateTime) :
    Except PyError DispatchResult :=
  match b.find name with
  | some record =>
    match record.days_to_birthday none now with
    | .error e => .error e
    | .ok (some d) =>
      .ok ⟨b, ["Days left to " ++ name ++ pyQuote ++ "s birthday: " ++ toString d ++ " days"],
           false⟩
    | .ok none => .ok ⟨b, [name ++ " has no birthday specified."], false⟩
  | none => .ok ⟨b, ["No record found for " ++ name ++ "."], false⟩

/-- The if/elif chain of main() of main.py over the normalized command
string, in source order. -/
def dispatchCore (now : PyDateTime) (b : AddressBook) (command : String) :
    Except PyError DispatchResult :=
  if pyStartsWith command "add " then addCommand b command
  else if pyStartsWith command "delete " then deleteCommand b (pyDropChars 7 command)
  else if pyStartsWith command "find " then findCommand b (pyDropChars 5 command)
  else if pyStartsWith command "edit " then editCommand b command
  else if command = "show all" then .ok ⟨b, [b.render], false⟩
  else if pyStartsWith command "birthday " then birthdayCommand b (pyDropChars 9 command) now
  else if command = "good bye" ∨ command = "close" ∨ command = "exit" then
    .ok ⟨b, ["Good bye!"], true⟩
  else .ok ⟨b, ["Invalid command. Type " ++ pyQuote ++ "help" ++ pyQuote ++
                " for a list of commands."], false⟩

/-- One iteration of the main() loop of main.py: command =
input().strip().lower(), then the chain.  A .error result is an exception
propagating out of the loop, i.e. a crashed session. -/
def dispatchMain (now : PyDateTime) (b : AddressBook) (line : String) :
    Except PyError DispatchResult :=
  dispatchCore now b (pyLower (pyStrip line))

/-- add_func of main-currying.py (before its decorator): starred unpacking
needs at least 3 parts, otherwise ValueError; then the same record
construction as the add branch of main.py. -/
def add_func (b : AddressBook) (command : String) : Except PyError (AddressBook × String) :=
  match pySplit (Char.ofNat 32) command with
  | _ :: name :: phone :: birthdayParts =>
    let record := (Record.init name birthdayParts.head?).add_phone phone
    .ok (b.add_record record, "Record for " ++ name ++ " added to the address book.")
  | _ => .error (.valueError "not enough values to unpack")

/-- Modelled from the spec: the input_error decorator lives in the
decorator module, which is not under src/.  Per the spec's propagation
policy, errors raised by a handler are "caught at the dispatcher boundary
and converted into a displayable message"; the book is left as it was when
the error was raised. -/
def input_error (b : AddressBook) (r : Except PyError (AddressBook × String)) :
    AddressBook × String :=
  match r with
  | .ok x => x
  | .error (.valueError msg) => (b, msg)
  | .error (.attributeError msg) => (b, msg)

/-- The storage invariant of the book: every entry's key is the stored
record's own name value, so a record can always be found under its name. -/
def AddressBook.KeysMatchNames (b : AddressBook) : Prop :=
  ∀ kv ∈ b.data, (kv.2).name.value = kv.1

/-- Decidable equality for Except values (used to evaluate outcomes on
concrete inputs). -/
instance {ε α : Type} [DecidableEq ε] [DecidableEq α] : DecidableEq (Except ε α) := by
  intro a b
  cases a <;> cases b
  case error.error e1 e2 =>
    exact if h : e1 = e2 then isTrue (by rw [h]) else isFalse (by intro hc; cases hc; exact h rfl)
  case ok.ok x1 x2 =>
    exact if h : x1 = x2 then isTrue (by rw [h]) else isFalse (by intro hc; cases hc; exact h rfl)
  case error.ok e x => exact isFalse (by intro hc; cases hc)
  case ok.error x e => exact isFalse (by intro hc; cases hc)

/-- Characters matched by the regex class [0-9]. -/
theorem char_isDigit_iff (c : Char) :
    c.isDigit = true ↔ 48 ≤ c.toNat ∧ c.toNat ≤ 57 := by
  unfold Char.isDigit
  simp only [Bool.and_eq_true, decide_eq_true_eq, Char.le_def]
  constructor
  · rintro ⟨h1, h2⟩
    exact ⟨h1, h2⟩
  · rintro ⟨h1, h2⟩
    exact ⟨h1, h2⟩

/-- C2: the claim fails on the code: neither variant ever runs the phone
validator at construction, so Phone(s) succeeds for every string s and
stores s exactly; the claimed 10-decimal-digit rule exists only as the body
of the uninvoked validate method of main-currying.py (the main.py variant
would even accept lengths 10 to 12). -/
theorem phone_init_never_validates :
    (∀ s : String, Phone.init s = { value := s }) ∧
    (∀ s : String, (Phone.init s).validateOk = true ↔
      (s.length = 10 ∧ ∀ c ∈ s.data, 48 ≤ c.toNat ∧ c.toNat ≤ 57)) := by
  constructor
  · intro s; rfl
  · intro s
    simp [Phone.init, Phone.validateOk, List.all_eq_true, char_isDigit_iff]

/-- C2 counterexample: Phone("123"), which the claim says must fail with
ValidationError, succeeds and stores "123". -/
theorem phone_init_accepts_123 :
    Phone.init "123" = { value := "123" } ∧ (Phone.init "123").validateOk = false := by
  constructor
  · rfl
  · decide

/-- C9 (code bug, acknowledged by the spec as the original's
mutate-before-validate ordering): set_value overwrites the stored value
BEFORE validating, so after a failing call the field holds the invalid
candidate, not the prior value.  Shown on the currying variant's Birthday,
whose validator actually runs and raises. -/
theorem birthday_set_value_overwrites :
    (∀ (b : Birthday) (v : String), (b.set_value v).2 = { value := v }) ∧
    Birthday.set_value { value := "01-06-1990" } "garbage" =
      (.error (.valueError "Invalid birthday format (DD-MM-YYYY)"), { value := "garbage" }) := by
  constructor
  · intro b v; rfl
  · decide

/-- The iterator cursor stays at or below 0 when the step is nonpositive. -/
theorem iterCurrentPage_nonpos (page_size : Int) (hp : page_size ≤ 0) :
    ∀ k, iterCurrentPage page_size k ≤ 0 := by
  intro k
  induction k with
  | zero => simp [iterCurrentPage]
  | succ k ih => unfold iterCurrentPage; omega

/-- C5 (amended): iterator(page_size) contains no page_size check and can
raise nothing; for page_size ≤ 0 on a nonempty book the loop guard
current_page < len(data) holds before every iteration, so the generator
yields pages forever (it neither fails with InvalidArgument nor
terminates). -/
theorem iterator_nonpositive_diverges (n : Nat) (page_size : Int)
    (hp : page_size ≤ 0) (hn : 0 < n) : ∀ k, iterGuard n page_size k := by
  intro k
  have h := iterCurrentPage_nonpos page_size hp k
  unfold iterGuard
  omega

/-- C5 witness: one record, page size 0: the guard holds at step 5. -/
theorem iterator_nonpositive_diverges_witness : iterGuard 1 0 5 :=
  iterator_nonpositive_diverges 1 0 (by decide) (by decide) 5

/-- C5 counterexample: with one record and page_size = 0 the claim demands
an InvalidArgument failure; instead the guard holds at step 0 (an empty
page is yielded), the cursor never advances, and the guard still holds
three iterations later. -/
theorem iterator_zero_page_size_yields :
    iterGuard 1 0 0 ∧ iterCurrentPage 0 3 = 0 ∧ iterGuard 1 0 3 := by
  refine ⟨?_, ?_, ?_⟩ <;> simp [iterGuard, iterCurrentPage]

/-- C3 (code bug): days_to_birthday does return none exactly when no
birthday is set, but in the other case it builds next_birthday from its
PARAMETER birthday_date, which is None in the dispatcher's argumentless
call: the parsed stored birthday is computed and discarded, and
None.replace raises AttributeError, so the documented day count is never
produced for a set birthday. -/
theorem days_to_birthday_default_crashes :
    (∀ (r : Record) (now : PyDateTime), r.birthday = none →
       r.days_to_birthday none now = .ok none) ∧
    (∀ (r : Record) (now : PyDateTime) (bd : Birthday) (d : PyDateTime),
       r.birthday = some bd → pyStrptimeDate bd.value = some d →
       r.days_to_birthday none now =
         .error (.attributeError "NoneType object has no attribute replace")) := by
  constructor
  · intro r now h
    unfold Record.days_to_birthday
    rw [h]
  · intro r now bd d h hp
    unfold Record.days_to_birthday
    rw [h]
    dsimp only
    rw [hp]

/-- C3 witness: a record with birthday 01-06-1990, asked with no argument
as the dispatcher does, crashes with AttributeError. -/
theorem days_to_birthday_default_crashes_witness :
    Record.days_to_birthday ⟨⟨"alice"⟩, [], some ⟨"01-06-1990"⟩⟩ none ⟨2024, 1, 1, 0⟩ =
      .error (.attributeError "NoneType object has no attribute replace") :=
  days_to_birthday_default_crashes.2 _ _ ⟨"01-06-1990"⟩ ⟨1990, 6, 1, 0⟩ rfl (by decide)

/-- dict write-then-read of the same key returns the written value. -/
theorem dictGet_dictSet_self (d : List (String × Record)) (k : String) (v : Record) :
    dictGet (dictSet d k v) k = some v := by
  induction d with
  | nil => simp [dictSet, dictGet]
  | cons kv rest ih =>
    obtain ⟨k1, v1⟩ := kv
    by_cases h : k1 = k
    · simp [dictSet, dictGet, h]
    · simp [dictSet, dictGet, h, ih]

/-- lookup of an absent key misses. -/
theorem dictGet_eq_none_of_not_mem (d : List (String × Record)) (k : String)
    (h : k ∉ d.map Prod.fst) : dictGet d k = none := by
  induction d with
  | nil => rfl
  | cons kv rest ih =>
    obtain ⟨k1, v1⟩ := kv
    rw [List.map_cons, List.mem_cons] at h
    push_neg at h
    obtain ⟨h1, h2⟩ := h
    simp only [dictGet]
    rw [if_neg (fun hh => h1 hh.symm)]
    exact ih h2

/-- deleting a key from a duplicate-free dict makes lookups of it miss. -/
theorem dictGet_dictDel_self (d : List (String × Record)) (k : String)
    (h : (d.map Prod.fst).Nodup) : dictGet (dictDel d k) k = none := by
  induction d with
  | nil => rfl
  | cons kv rest ih =>
    obtain ⟨k1, v1⟩ := kv
    rw [List.map_cons, List.nodup_cons] at h
    obtain ⟨h1, h2⟩ := h
    by_cases hk : k1 = k
    · subst hk
      simp only [dictDel, if_pos rfl]
      exact dictGet_eq_none_of_not_mem rest k1 h1
    · simp only [dictDel, if_neg hk, dictGet, if_neg hk]
      exact ih h2

/-- C8: add_record then find under the stored record's own name returns
that very record (hence one with the same rendered string), and delete
then find returns none; the delete half uses the dict invariant that keys
are duplicate-free, which every reachable book state satisfies. -/
theorem add_find_delete_find_spec :
    (∀ (b : AddressBook) (r : Record),
       (b.add_record r).find r.name.value = some r ∧
       ((b.add_record r).find r.name.value).map Record.render = some (Record.render r)) ∧
    (∀ (b : AddressBook) (name : String), b.WF → (b.delete name).find name = none) := by
  constructor
  · intro b r
    have h : (b.add_record r).find r.name.value = some r :=
      dictGet_dictSet_self b.data r.name.value r
    refine ⟨h, ?_⟩
    rw [h]
    rfl
  · intro b name hwf
    exact dictGet_dictDel_self b.data name hwf

/-- C8 witness: on a concrete one-record book, delete then find misses. -/
theorem add_find_delete_find_spec_witness :
    ((AddressBook.mk [("alice", ⟨⟨"alice"⟩, [⟨"1234567890"⟩], none⟩)]).delete "alice").find
      "alice" = none :=
  add_find_delete_find_spec.2 ⟨[("alice", ⟨⟨"alice"⟩, [⟨"1234567890"⟩], none⟩)]⟩ "alice"
    (by unfold AddressBook.WF; decide)

/-- With the cursor at or past the end, the generator yields nothing. -/
theorem addressGeneratorLoop_eq_nil (values : List Record) (k fuel c : Nat)
    (h : values.length ≤ c) : addressGeneratorLoop values k fuel c = [] := by
  cases fuel with
  | zero => rfl
  | succ fuel => simp [addressGeneratorLoop, Nat.not_lt.mpr h]

/-- Concatenating the yielded pages recovers the value list from the
cursor on, given fuel covering the remaining iterations. -/
theorem addressGeneratorLoop_join (values : List Record) (k : Nat) :
    ∀ (fuel c : Nat), values.length ≤ c + fuel * k →
      (addressGeneratorLoop values k fuel c).flatten = values.drop c := by
  intro fuel
  induction fuel with
  | zero =>
    intro c h
    rw [Nat.zero_mul, Nat.add_zero] at h
    rw [addressGeneratorLoop_eq_nil values k 0 c h]
    rw [List.drop_eq_nil_of_le h]
    rfl
  | succ fuel ih =>
    intro c h
    rw [Nat.succ_mul] at h
    by_cases hc : c < values.length
    · simp only [addressGeneratorLoop, if_pos hc, List.flatten_cons]
      rw [ih (c + k) (by omega)]
      rw [← List.drop_drop]
      exact List.take_append_drop k (values.drop c)
    · rw [addressGeneratorLoop_eq_nil values k (fuel + 1) c (Nat.not_lt.1 hc)]
      rw [List.drop_eq_nil_of_le (Nat.not_lt.1 hc)]
      rfl

/-- The number of yielded pages is the ceiling of the remaining element
count over the page size. -/
theorem addressGeneratorLoop_length (values : List Record) (k : Nat) (hk : 0 < k) :
    ∀ (fuel c : Nat), values.length ≤ c + fuel * k →
      (addressGeneratorLoop values k fuel c).length = (values.length - c + k - 1) / k := by
  intro fuel
  induction fuel with
  | zero =>
    intro c h
    rw [Nat.zero_mul, Nat.add_zero] at h
    rw [addressGeneratorLoop_eq_nil values k 0 c h]
    rw [show values.length - c + k - 1 = k - 1 from by omega]
    rw [Nat.div_eq_of_lt (by omega)]
    rfl
  | succ fuel ih =>
    intro c h
    rw [Nat.succ_mul] at h
    by_cases hc : c < values.length
    · simp only [addressGeneratorLoop, if_pos hc, List.length_cons]
      rw [ih (c + k) (by omega)]
      rw [show values.length - c + k - 1 = (values.length - c - 1) + k from by omega]
      rw [Nat.add_div_right _ hk]
      congr 1
      rcases le_or_lt (values.length - c) k with hmk | hmk
      · rw [show values.length - (c + k) + k - 1 = k - 1 from by omega]
        rw [Nat.div_eq_of_lt (by omega), Nat.div_eq_of_lt (by omega)]
      · rw [show values.length - (c + k) + k - 1 = values.length - c - 1 from by omega]
    · rw [addressGeneratorLoop_eq_nil values k (fuel + 1) c (Nat.not_lt.1 hc)]
      rw [show values.length - c + k - 1 = k - 1 from by omega]
      rw [Nat.div_eq_of_lt (by omega)]
      rfl

/-- Every yielded page is nonempty and at most the page size, and every
page other than the last is exactly the page size. -/
theorem addressGeneratorLoop_page_sizes (values : List Record) (k : Nat) (hk : 0 < k) :
    ∀ (fuel c : Nat), values.length ≤ c + fuel * k →
      (∀ p ∈ (addressGeneratorLoop values k fuel c).dropLast, p.length = k) ∧
      (∀ p ∈ addressGeneratorLoop values k fuel c, 0 < p.length ∧ p.length ≤ k) := by
  intro fuel
  induction fuel with
  | zero =>
    intro c h
    rw [Nat.zero_mul, Nat.add_zero] at h
    rw [addressGeneratorLoop_eq_nil values k 0 c h]
    exact ⟨by simp, by simp⟩
  | succ fuel ih =>
    intro c h
    rw [Nat.succ_mul] at h
    by_cases hc : c < values.length
    · obtain ⟨ih1, ih2⟩ := ih (c + k) (by omega)
      simp only [addressGeneratorLoop, if_pos hc]
      constructor
      · cases hrest : addressGeneratorLoop values k fuel (c + k) with
        | nil => simp
        | cons q qs =>
          have hck : c + k < values.length := by
            by_contra hle
            rw [addressGeneratorLoop_eq_nil values k fuel (c + k) (by omega)] at hrest
            exact List.noConfusion hrest
          intro p hp
          rw [← hrest] at hp
          rw [hrest, List.dropLast_cons₂, ← hrest] at hp
          rcases List.mem_cons.mp hp with rfl | hp
          · rw [List.length_take, List.length_drop]
            omega
          · exact ih1 p hp
      · intro p hp
        rcases List.mem_cons.mp hp with rfl | hp
        · rw [List.length_take, List.length_drop]
          omega
        · exact ih2 p hp
    · rw [addressGeneratorLoop_eq_nil values k (fuel + 1) c (Nat.not_lt.1 hc)]
      exact ⟨by simp, by simp⟩

/-- C4: over the current record values, iterator(k) for k > 0 yields
exactly ceil(n/k) pages whose concatenation is the value list in iteration
order (each record in exactly one page, pages consecutive and
non-overlapping), every page of length k except possibly the last, which
is shorter but nonempty. -/
theorem iterator_pages_spec (b : AddressBook) (k : Nat) (hk : 0 < k) :
    (b.iterator k).length = ((b.data.map Prod.snd).length + k - 1) / k ∧
    (b.iterator k).flatten = b.data.map Prod.snd ∧
    (∀ p ∈ (b.iterator k).dropLast, p.length = k) ∧
    (∀ p ∈ b.iterator k, 0 < p.length ∧ p.length ≤ k) := by
  have hfuel : (b.data.map Prod.snd).length ≤ 0 + (b.data.length + 1) * k := by
    rw [List.length_map, Nat.zero_add]
    calc b.data.length ≤ b.data.length + 1 := Nat.le_succ _
    _ = (b.data.length + 1) * 1 := (Nat.mul_one _).symm
    _ ≤ (b.data.length + 1) * k := Nat.mul_le_mul_left _ hk
  obtain ⟨hs1, hs2⟩ :=
    addressGeneratorLoop_page_sizes (b.data.map Prod.snd) k hk (b.data.length + 1) 0 hfuel
  refine ⟨?_, ?_, hs1, hs2⟩
  · have := addressGeneratorLoop_length (b.data.map Prod.snd) k hk (b.data.length + 1) 0 hfuel
    rw [show AddressBook.iterator b k =
          addressGeneratorLoop (b.data.map Prod.snd) k (b.data.length + 1) 0 from rfl]
    rw [this, Nat.sub_zero]
  · have := addressGeneratorLoop_join (b.data.map Prod.snd) k (b.data.length + 1) 0 hfuel
    rw [show AddressBook.iterator b k =
          addressGeneratorLoop (b.data.map Prod.snd) k (b.data.length + 1) 0 from rfl]
    rw [this, List.drop_zero]

/-- C4 witness: three records in pages of two: two pages, covering all. -/
theorem iterator_pages_spec_witness :
    ((AddressBook.mk [("a", ⟨⟨"a"⟩, [], none⟩), ("b", ⟨⟨"b"⟩, [], none⟩),
        ("c", ⟨⟨"c"⟩, [], none⟩)]).iterator 2).flatten =
      ((AddressBook.mk [("a", ⟨⟨"a"⟩, [], none⟩), ("b", ⟨⟨"b"⟩, [], none⟩),
        ("c", ⟨⟨"c"⟩, [], none⟩)]).data.map Prod.snd) ∧
    ((AddressBook.mk [("a", ⟨⟨"a"⟩, [], none⟩), ("b", ⟨⟨"b"⟩, [], none⟩),
        ("c", ⟨⟨"c"⟩, [], none⟩)]).iterator 2).length = 2 :=
  ⟨(iterator_pages_spec (AddressBook.mk [("a", ⟨⟨"a"⟩, [], none⟩), ("b", ⟨⟨"b"⟩, [], none⟩),
      ("c", ⟨⟨"c"⟩, [], none⟩)]) 2 (by decide)).2.1, by decide⟩

/-- Shifting the loop by one list element: inspecting position i + 1 of
p :: l is inspecting position i of l, and removals behave accordingly. -/
theorem removePhoneLoop_cons (number : String) (p : Phone) :
    ∀ (fuel : Nat) (l : List Phone) (i : Nat), l.length - i ≤ fuel →
      removePhoneLoop number (p :: l) (i + 1) = p :: removePhoneLoop number l i := by
  intro fuel
  induction fuel with
  | zero =>
    intro l i h
    unfold removePhoneLoop
    rw [dif_neg (by simp; omega), dif_neg (by omega)]
  | succ fuel ih =>
    intro l i h
    by_cases hlt : i < l.length
    · unfold removePhoneLoop
      rw [dif_pos (by simp; omega), dif_pos hlt]
      rw [List.getElem_cons_succ]
      by_cases hv : (l[i]).value = number
      · rw [if_pos hv, if_pos hv]
        rw [List.eraseIdx_cons_succ]
        refine ih (l.eraseIdx i) (i + 1) ?_
        rw [List.length_eraseIdx]
        simp only [hlt, if_pos]
        omega
      · rw [if_neg hv, if_neg hv]
        exact ih l (i + 1) (by omega)
    · unfold removePhoneLoop
      rw [dif_neg (by simp; omega), dif_neg (by omega)]

/-- Unfolding equation of the structural scan on a nonempty list. -/
theorem removePhoneRun_cons (number : String) (p : Phone) (rest : List Phone) :
    removePhoneRun number (p :: rest) =
      if p.value = number then
        match rest with
        | [] => []
        | q :: rest2 => q :: removePhoneRun number rest2
      else p :: removePhoneRun number rest := by
  conv_lhs => unfold removePhoneRun

/-- The index loop started at 0 computes the structural restatement. -/
theorem removePhoneLoop_eq_run (number : String) :
    ∀ l : List Phone, removePhoneLoop number l 0 = removePhoneRun number l := by
  have H : ∀ (n : Nat) (l : List Phone), l.length ≤ n →
      removePhoneLoop number l 0 = removePhoneRun number l := by
    intro n
    induction n with
    | zero =>
      intro l h
      rw [List.eq_nil_of_length_eq_zero (Nat.le_zero.mp h)]
      unfold removePhoneLoop
      rw [dif_neg (by simp)]
      rfl
    | succ n ih =>
      intro l h
      match l with
      | [] =>
        unfold removePhoneLoop
        rw [dif_neg (by simp)]
        rfl
      | p :: rest =>
        unfold removePhoneLoop
        rw [dif_pos (by simp)]
        rw [List.getElem_cons_zero]
        by_cases hv : p.value = number
        · rw [if_pos hv]
          rw [List.eraseIdx_cons_zero]
          cases rest with
          | nil =>
            unfold removePhoneRun
            rw [if_pos hv]
            unfold removePhoneLoop
            rfl
          | cons q rest2 =>
            have hcons : removePhoneLoop number (q :: rest2) 1 =
                q :: removePhoneLoop number rest2 0 := by
              have := removePhoneLoop_cons number q rest2.length rest2 0 (by omega)
              simpa using this
            rw [hcons]
            rw [ih rest2 (by simp at h; omega)]
            conv_rhs => rw [removePhoneRun_cons]
            rw [if_pos hv]
        · rw [if_neg hv]
          have hcons : removePhoneLoop number (p :: rest) 1 =
              p :: removePhoneLoop number rest 0 := by
            have := removePhoneLoop_cons number p rest.length rest 0 (by omega)
            simpa using this
          rw [hcons]
          rw [ih rest (by simp at h; omega)]
          conv_rhs => rw [removePhoneRun_cons]
          rw [if_neg hv]
  exact fun l => H l.length l (Nat.le_refl _)

/-- When no phone matches, the scan is the identity (the no-op case). -/
theorem removePhoneRun_of_not_mem (number : String) :
    ∀ l : List Phone, number ∉ l.map Phone.value → removePhoneRun number l = l := by
  intro l
  induction l with
  | nil => intro h; rfl
  | cons p rest ih =>
    intro h
    rw [List.map_cons, List.mem_cons] at h
    push_neg at h
    obtain ⟨h1, h2⟩ := h
    unfold removePhoneRun
    rw [if_neg (fun hh => h1 hh.symm)]
    rw [ih h2]

/-- When the value occurs at most once, the scan removes exactly the first
occurrence: on values it is List.erase. -/
theorem removePhoneRun_count_le_one (number : String) :
    ∀ l : List Phone, (l.map Phone.value).count number ≤ 1 →
      (removePhoneRun number l).map Phone.value = (l.map Phone.value).erase number := by
  intro l
  induction l with
  | nil => intro h; rfl
  | cons p rest ih =>
    intro h
    rw [List.map_cons, List.count_cons] at h
    by_cases hv : p.value = number
    · have hcount : (rest.map Phone.value).count number = 0 := by
        rw [if_pos (by exact beq_iff_eq.mpr hv)] at h
        omega
      have hnot : number ∉ rest.map Phone.value := by
        rw [← List.count_eq_zero]
        exact hcount
      unfold removePhoneRun
      rw [if_pos hv]
      rw [List.map_cons, hv, List.erase_cons_head]
      cases rest with
      | nil => rfl
      | cons q rest2 =>
        rw [List.map_cons, List.mem_cons] at hnot
        push_neg at hnot
        obtain ⟨hq, hrest2⟩ := hnot
        rw [List.map_cons]
        rw [removePhoneRun_of_not_mem number rest2 hrest2]
        rw [List.map_cons]
    · unfold removePhoneRun
      rw [if_neg hv]
      rw [List.map_cons, List.map_cons]
      rw [List.erase_cons_tail (by simp [hv])]
      rw [ih (by rw [if_neg (by simp [hv])] at h; omega)]

/-- remove_phone with no matching phone is the identity on the record. -/
theorem remove_phone_noop (r : Record) (number : String)
    (h : number ∉ r.phones.map Phone.value) : r.remove_phone number = r := by
  unfold Record.remove_phone
  rw [removePhoneLoop_eq_run, removePhoneRun_of_not_mem number r.phones h]

/-- remove_phone on a record whose phones contain the value at most once
deletes exactly the first occurrence (List.erase on the value sequence). -/
theorem remove_phone_erase (r : Record) (number : String)
    (h : (r.phones.map Phone.value).count number ≤ 1) :
    (r.remove_phone number).phones.map Phone.value =
      (r.phones.map Phone.value).erase number := by
  unfold Record.remove_phone
  show (removePhoneLoop number r.phones 0).map Phone.value = _
  rw [removePhoneLoop_eq_run]
  exact removePhoneRun_count_le_one number r.phones h

/-- C7 (amended): remove_phone is a no-op, not an error, when no phone
matches, and when at most one phone matches it removes exactly the first
occurrence leaving the rest in place; but because the list is mutated
while the for-loop's index advances, each removal skips the next element,
so with several duplicates some (not all) later duplicates are removed
too, contradicting the claim's "leaving all other phones in place". -/
theorem remove_phone_behavior :
    (∀ (r : Record) (number : String), number ∉ r.phones.map Phone.value →
       r.remove_phone number = r) ∧
    (∀ (r : Record) (number : String), (r.phones.map Phone.value).count number ≤ 1 →
       (r.remove_phone number).phones.map Phone.value =
         (r.phones.map Phone.value).erase number) :=
  ⟨remove_phone_noop, remove_phone_erase⟩

/-- C7 witness: an absent number leaves the record untouched. -/
theorem remove_phone_behavior_witness :
    Record.remove_phone ⟨⟨"alice"⟩, [⟨"1111111111"⟩], none⟩ "2222222222" =
      ⟨⟨"alice"⟩, [⟨"1111111111"⟩], none⟩ :=
  remove_phone_behavior.1 ⟨⟨"alice"⟩, [⟨"1111111111"⟩], none⟩ "2222222222" (by decide)

/-- C7 counterexample: phones [x, y, x] with x = 1234567890: the claim
says the later duplicate stays ([y, x]); the code also removes it, leaving
only [y]. -/
theorem remove_phone_removes_later_duplicate :
    (Record.mk ⟨"alice"⟩ [⟨"1234567890"⟩, ⟨"0000000000"⟩, ⟨"1234567890"⟩] none).remove_phone
        "1234567890" =
      Record.mk ⟨"alice"⟩ [⟨"0000000000"⟩] none := by
  unfold Record.remove_phone
  rw [removePhoneLoop_eq_run]
  decide

/-- C6 (amended): edit_phone on an absent old number raises the not-found
ValueError with the record unchanged; on a present old number it appends
Phone(new) at the end after running remove_phone(old), so when old occurs
at most once and old differs from new the result contains new and not
old -- but with duplicated old values a later duplicate can survive
(phones [old, old] end as [old, new]), contradicting the claim's
"contain new and not old" in general. -/
theorem edit_phone_behavior :
    (∀ (r : Record) (old_number new_number : String),
       old_number ∉ r.phones.map Phone.value →
       r.edit_phone old_number new_number = .error (.valueError "Phone number not found")) ∧
    (∀ (r : Record) (old_number new_number : String) (res : Record),
       old_number ∈ r.phones.map Phone.value →
       r.edit_phone old_number new_number = .ok res →
       res.phones = (r.remove_phone old_number).phones ++ [Phone.init new_number] ∧
       res.phones.getLast? = some (Phone.init new_number) ∧
       ((r.phones.map Phone.value).count old_number ≤ 1 → old_number ≠ new_number →
         old_number ∉ res.phones.map Phone.value)) := by
  constructor
  · intro r old_number new_number h
    unfold Record.edit_phone
    rw [if_neg h]
  · intro r old_number new_number res hmem heq
    unfold Record.edit_phone at heq
    rw [if_pos hmem] at heq
    injection heq with heq
    subst heq
    refine ⟨rfl, ?_, ?_⟩
    · show ((r.remove_phone old_number).phones ++ [Phone.init new_number]).getLast? = _
      rw [List.getLast?_concat]
    · intro hcount hne
      show old_number ∉
        ((r.remove_phone old_number).phones ++ [Phone.init new_number]).map Phone.value
      rw [List.map_append, List.mem_append]
      push_neg
      constructor
      · rw [remove_phone_erase r old_number hcount]
        rw [← List.count_eq_zero]
        have hpos : 0 < (r.phones.map Phone.value).count old_number :=
          List.count_pos_iff.mpr hmem
        rw [List.count_erase_self]
        omega
      · simp [Phone.init]
        exact hne

/-- C6 witness: editing an absent number fails with the not-found error. -/
theorem edit_phone_behavior_witness :
    Record.edit_phone ⟨⟨"bob"⟩, [⟨"5555555555"⟩], none⟩ "7777777777" "8888888888" =
      .error (.valueError "Phone number not found") :=
  edit_phone_behavior.1 ⟨⟨"bob"⟩, [⟨"5555555555"⟩], none⟩ "7777777777" "8888888888" (by decide)

/-- C6 counterexample: on phones [old, old], edit_phone(old, new) yields
[old, new]: the old number is still present afterwards, though the claim
requires the phones to contain new and not old. -/
theorem edit_phone_duplicate_old_survives :
    Record.edit_phone ⟨⟨"alice"⟩, [⟨"1234567890"⟩, ⟨"1234567890"⟩], none⟩ "1234567890"
        "0987654321" =
      .ok ⟨⟨"alice"⟩, [⟨"1234567890"⟩, ⟨"0987654321"⟩], none⟩ ∧
    "1234567890" ∈ ([(⟨"1234567890"⟩ : Phone), ⟨"0987654321"⟩].map Phone.value) := by
  constructor
  · unfold Record.edit_phone Record.add_phone Record.remove_phone
    rw [removePhoneLoop_eq_run]
    decide
  · decide

/-- C1 (amended): the main.py dispatcher has no error boundary at all.
The command add bob 123 is not rejected: since Phone construction never
validates, a record for bob with phone "123" is stored and a success
message printed (the currying variant's add_func accepts it equally); and
an error raised inside an operation propagates out of the loop: when the
found record holds a birthday string strptime cannot parse, the birthday
command ends the session with the ValueError from as_datetime. -/
theorem dispatch_no_error_boundary :
    (∀ (b : AddressBook) (now : PyDateTime),
       dispatchMain now b "add bob 123" =
         .ok ⟨b.add_record ⟨⟨"bob"⟩, [⟨"123"⟩], none⟩,
              ["Record for bob added to the address book."], false⟩ ∧
       (b.add_record ⟨⟨"bob"⟩, [⟨"123"⟩], none⟩).find "bob" =
         some ⟨⟨"bob"⟩, [⟨"123"⟩], none⟩) ∧
    (∀ (b : AddressBook) (now : PyDateTime) (r : Record) (bd : Birthday),
       b.find "alice" = some r → r.birthday = some bd → pyStrptimeDate bd.value = none →
       dispatchMain now b "birthday alice" =
         .error (.valueError "time data does not match format")) ∧
    (∀ b : AddressBook,
       add_func b "add bob 123" =
         .ok (b.add_record ⟨⟨"bob"⟩, [⟨"123"⟩], none⟩,
              "Record for bob added to the address book.")) := by
  refine ⟨?_, ?_, ?_⟩
  · intro b now
    constructor
    · rfl
    · exact dictGet_dictSet_self b.data "bob" ⟨⟨"bob"⟩, [⟨"123"⟩], none⟩
  · intro b now r bd hfind hbd hparse
    have hdays : r.days_to_birthday none now =
        .error (.valueError "time data does not match format") := by
      unfold Record.days_to_birthday
      rw [hbd]
      dsimp only
      rw [hparse]
    have hred : dispatchMain now b "birthday alice" = birthdayCommand b "alice" now := rfl
    rw [hred]
    unfold birthdayCommand
    rw [hfind]
    dsimp only
    rw [hdays]
  · intro b
    rfl

/-- C1 witness: a concrete book holding alice with the unparseable stored
birthday "garbage" (which add accepts, since Birthday never validates):
the birthday command crashes the session with a ValueError. -/
theorem dispatch_no_error_boundary_witness :
    dispatchMain ⟨2024, 1, 1, 0⟩
        ⟨[("alice", ⟨⟨"alice"⟩, [⟨"1234567890"⟩], some ⟨"garbage"⟩⟩)]⟩ "birthday alice" =
      .error (.valueError "time data does not match format") :=
  dispatch_no_error_boundary.2.1
    ⟨[("alice", ⟨⟨"alice"⟩, [⟨"1234567890"⟩], some ⟨"garbage"⟩⟩)]⟩ ⟨2024, 1, 1, 0⟩
    ⟨⟨"alice"⟩, [⟨"1234567890"⟩], some ⟨"garbage"⟩⟩ ⟨"garbage"⟩ (by decide) rfl (by decide)

/-- C1 counterexample: from the empty book, add bob 123 succeeds with a
success message (the claim requires a validation message), and bob is
afterwards present with phone "123" (the claim requires no record). -/
theorem dispatch_add_bob_123_adds_record :
    dispatchMain ⟨2024, 1, 1, 0⟩ ⟨[]⟩ "add bob 123" =
      .ok ⟨⟨[("bob", ⟨⟨"bob"⟩, [⟨"123"⟩], none⟩)]⟩,
           ["Record for bob added to the address book."], false⟩ ∧
    (AddressBook.mk [("bob", ⟨⟨"bob"⟩, [⟨"123"⟩], none⟩)]).find "bob" =
      some ⟨⟨"bob"⟩, [⟨"123"⟩], none⟩ := by
  constructor
  · decide
  · decide

/-- dict assignment preserves an entrywise property when the new entry
satisfies it. -/
theorem dictSet_forall {P : String × Record → Prop} :
    ∀ (d : List (String × Record)) (k : String) (v : Record),
      (∀ kv ∈ d, P kv) → P (k, v) → ∀ kv ∈ dictSet d k v, P kv := by
  intro d
  induction d with
  | nil =>
    intro k v _ hkv kv hm
    unfold dictSet at hm
    rw [List.mem_singleton] at hm
    subst hm
    exact hkv
  | cons kv1 rest ih =>
    obtain ⟨k1, v1⟩ := kv1
    intro k v hd hkv kv hm
    unfold dictSet at hm
    by_cases h : k1 = k
    · rw [if_pos h, List.mem_cons] at hm
      rcases hm with rfl | hm
      · exact hkv
      · exact hd kv (List.mem_cons_of_mem _ hm)
    · rw [if_neg h, List.mem_cons] at hm
      rcases hm with rfl | hm
      · exact hd (k1, v1) (List.mem_cons_self _ _)
      · exact ih k v (fun x hx => hd x (List.mem_cons_of_mem _ hx)) hkv kv hm

/-- dict deletion preserves an entrywise property. -/
theorem dictDel_forall {P : String × Record → Prop} :
    ∀ (d : List (String × Record)) (k : String),
      (∀ kv ∈ d, P kv) → ∀ kv ∈ dictDel d k, P kv := by
  intro d
  induction d with
  | nil =>
    intro k _ kv hm
    exact absurd hm (List.not_mem_nil kv)
  | cons kv1 rest ih =>
    obtain ⟨k1, v1⟩ := kv1
    intro k hd kv hm
    unfold dictDel at hm
    by_cases h : k1 = k
    · rw [if_pos h] at hm
      exact hd kv (List.mem_cons_of_mem _ hm)
    · rw [if_neg h, List.mem_cons] at hm
      rcases hm with rfl | hm
      · exact hd (k1, v1) (List.mem_cons_self _ _)
      · exact ih k (fun x hx => hd x (List.mem_cons_of_mem _ hx)) kv hm

/-- A successful dict lookup returns one of the entries. -/
theorem dictGet_mem :
    ∀ (d : List (String × Record)) (k : String) (v : Record),
      dictGet d k = some v → (k, v) ∈ d := by
  intro d
  induction d with
  | nil => intro k v h; exact absurd h (by simp [dictGet])
  | cons kv1 rest ih =>
    obtain ⟨k1, v1⟩ := kv1
    intro k v h
    unfold dictGet at h
    by_cases hk : k1 = k
    · rw [if_pos hk] at h
      injection h with h
      subst hk
      subst h
      exact List.mem_cons_self _ _
    · rw [if_neg hk] at h
      exact List.mem_cons_of_mem _ (ih k v h)

/-- add_record stores the record under its own name, keeping the key
invariant. -/
theorem keysMatch_add_record (b : AddressBook) (r : Record) (h : b.KeysMatchNames) :
    (b.add_record r).KeysMatchNames :=
  dictSet_forall b.data r.name.value r h rfl

/-- delete keeps the key invariant. -/
theorem keysMatch_delete (b : AddressBook) (name : String) (h : b.KeysMatchNames) :
    (b.delete name).KeysMatchNames :=
  dictDel_forall b.data name h

/-- Updating the found record in place with its name unchanged keeps the
key invariant. -/
theorem keysMatch_setEntry_found (b : AddressBook) (name : String) (r r2 : Record)
    (h : b.KeysMatchNames) (hfind : b.find name = some r)
    (hname : r2.name = r.name) : (b.setEntry name r2).KeysMatchNames := by
  have hmem := dictGet_mem b.data name r hfind
  have hkey : r.name.value = name := h (name, r) hmem
  refine dictSet_forall b.data name r2 h ?_
  show r2.name.value = name
  rw [hname, hkey]

/-- The add command preserves the key invariant. -/
theorem keysMatch_addCommand (b : AddressBook) (command : String) (res : DispatchResult)
    (hinv : b.KeysMatchNames) (hok : addCommand b command = .ok res) :
    res.book.KeysMatchNames := by
  unfold addCommand at hok
  split at hok
  · injection hok with hok
    subst hok
    exact keysMatch_add_record b _ hinv
  · injection hok with hok
    subst hok
    exact hinv

/-- The delete command preserves the key invariant. -/
theorem keysMatch_deleteCommand (b : AddressBook) (name : String) (res : DispatchResult)
    (hinv : b.KeysMatchNames) (hok : deleteCommand b name = .ok res) :
    res.book.KeysMatchNames := by
  unfold deleteCommand at hok
  injection hok with hok
  subst hok
  exact keysMatch_delete b name hinv

/-- The find command leaves the book untouched. -/
theorem keysMatch_findCommand (b : AddressBook) (name : String) (res : DispatchResult)
    (hinv : b.KeysMatchNames) (hok : findCommand b name = .ok res) :
    res.book.KeysMatchNames := by
  unfold findCommand at hok
  split at hok <;> (injection hok with hok; subst hok; exact hinv)

/-- The edit command rewrites the found record's phone list only, so the
key invariant survives. -/
theorem keysMatch_editCommand (b : AddressBook) (command : String) (res : DispatchResult)
    (hinv : b.KeysMatchNames) (hok : editCommand b command = .ok res) :
    res.book.KeysMatchNames := by
  unfold editCommand at hok
  split at hok
  · split at hok
    · rename_i record heq
      injection hok with hok
      subst hok
      exact keysMatch_setEntry_found b _ record _ hinv heq rfl
    · injection hok with hok
      subst hok
      exact hinv
  · injection hok with hok
    subst hok
    exact hinv

/-- The birthday command either crashes or leaves the book untouched. -/
theorem keysMatch_birthdayCommand (b : AddressBook) (name : String) (now : PyDateTime)
    (res : DispatchResult) (hinv : b.KeysMatchNames)
    (hok : birthdayCommand b name now = .ok res) : res.book.KeysMatchNames := by
  unfold birthdayCommand at hok
  split at hok
  · split at hok
    · exact absurd hok (by simp)
    · injection hok with hok
      subst hok
      exact hinv
    · injection hok with hok
      subst hok
      exact hinv
  · injection hok with hok
    subst hok
    exact hinv

/-- C10: the storage invariant -- every entry's key equals its record's
name value -- is kept by add_record and delete, and by every loop
iteration of the dispatcher that completes without raising (the add,
delete and edit commands in particular; the others do not write). -/
theorem keys_match_names_invariant :
    (∀ (b : AddressBook) (r : Record), b.KeysMatchNames → (b.add_record r).KeysMatchNames) ∧
    (∀ (b : AddressBook) (name : String), b.KeysMatchNames → (b.delete name).KeysMatchNames) ∧
    (∀ (b : AddressBook) (now : PyDateTime) (line : String) (res : DispatchResult),
       b.KeysMatchNames → dispatchMain now b line = .ok res → res.book.KeysMatchNames) := by
  refine ⟨keysMatch_add_record, keysMatch_delete, ?_⟩
  intro b now line res hinv hok
  unfold dispatchMain dispatchCore at hok
  split at hok
  · exact keysMatch_addCommand b _ res hinv hok
  · split at hok
    · exact keysMatch_deleteCommand b _ res hinv hok
    · split at hok
      · exact keysMatch_findCommand b _ res hinv hok
      · split at hok
        · exact keysMatch_editCommand b _ res hinv hok
        · split at hok
          · injection hok with hok
            subst hok
            exact hinv
          · split at hok
            · exact keysMatch_birthdayCommand b _ now res hinv hok
            · split at hok
              · injection hok with hok
                subst hok
                exact hinv
              · injection hok with hok
                subst hok
                exact hinv

/-- C10 witness: a concrete dispatcher step (add bob 123 on a book already
holding alice) lands in a state still satisfying the invariant. -/
theorem keys_match_names_invariant_witness :
    ∀ kv ∈ (AddressBook.mk [("alice", ⟨⟨"alice"⟩, [⟨"1234567890"⟩], none⟩),
        ("bob", ⟨⟨"bob"⟩, [⟨"123"⟩], none⟩)]).data, (kv.2).name.value = kv.1 :=
  keys_match_names_invariant.2.2
    ⟨[("alice", ⟨⟨"alice"⟩, [⟨"1234567890"⟩], none⟩)]⟩ ⟨2024, 1, 1, 0⟩ "add bob 123"
    ⟨⟨[("alice", ⟨⟨"alice"⟩, [⟨"1234567890"⟩], none⟩), ("bob", ⟨⟨"bob"⟩, [⟨"123"⟩], none⟩)]⟩,
     ["Record for bob added to the address book."], false⟩
    (by intro kv hm; simp at hm; subst hm; rfl) (by decide)
